import Mathlib

/-!
Shallow embedding of `array_lib` (file `src/unnamed/part_000`): the three
container templates `StackArray<T, N>`, `HeapArray<T>` and `GrowingArray<T>`.

Modelling conventions:
* A heap block of `T` slots is a `List (Option α)`: `none` is a slot of raw,
  unconstructed memory, `some v` is a constructed element holding value `v`.
* The null pointer (`begin == nullptr`) is the empty block `[]`; `free` on it
  is a no-op, exactly as `free(nullptr)` is.
* `abort()` inside `operator[]` is modelled by returning `Option.none` from
  the read function, a constructed element `v` by `some v`.
* Allocation calls, `free` calls, element constructor calls (placement `new`)
  and element destructor calls (`x.~T()`) performed by an operation are
  counted in an `Effects` record, read off the operation's source line by
  line.  Note that `begin[size] = item` (line 176) is a call to `T`'s copy
  assignment operator on raw storage: it is neither a constructor nor a
  destructor call.
-/

namespace ArrayLib

/-- Counts of the memory-management events an operation performs:
`malloc` calls, `free` calls, element constructor calls (placement new) and
element destructor calls. -/
structure Effects where
  mallocs : Nat
  frees : Nat
  ctors : Nat
  dtors : Nat
deriving DecidableEq

/-- Pointwise sum of two event counts: the events of running one operation
after another. -/
def Effects.add (e f : Effects) : Effects :=
  ⟨e.mallocs + f.mallocs, e.frees + f.frees, e.ctors + f.ctors, e.dtors + f.dtors⟩

/-- The events of an operation that touches no memory at all. -/
def Effects.zero : Effects := ⟨0, 0, 0, 0⟩

/-- Reading slot `i` of a heap block: the content of the slot, `none` when the
slot is raw memory or lies outside the block. -/
def cellAt (b : List (Option α)) (i : Nat) : Option α :=
  b[i]?.getD none

/-- The copy/move loop pattern `for (i = 0; i != n; ++i) new (dst + i) T(src[i]);`
shared by `HeapArray::copy` (lines 88-90), `GrowingArray::copy` (lines 145-147)
and the reallocation loop of `GrowingArray::push` (lines 171-173): slots
`0, …, n-1` of `dst` are overwritten with the corresponding slots of `src`. -/
def copyLoop (src dst : List (Option α)) : Nat → List (Option α)
  | 0 => dst
  | n + 1 => (copyLoop src dst n).set n (cellAt src n)

/-- Model of `StackArray<T, N>` (part_000 lines 24-55): a wrapper around a C array of
exactly `n` elements, all of which always exist. -/
structure StackArray (α : Type) (n : Nat) where
  c_array : List α
  size_eq : c_array.length = n

/-- Runtime `StackArray::operator[]` (part_000 lines 32-37):
`if (index >= N) abort(); return c_array[index];`. -/
def StackArray.read (a : StackArray α n) (index : Nat) : Option α :=
  if n ≤ index then none else a.c_array[index]?

/-- Model of `HeapArray<T>` (part_000 lines 59-114): a heap block and a size. -/
structure HeapArray (α : Type) where
  begin : List (Option α)
  size : Nat
deriving DecidableEq

/-- The `HeapArray(size_t length)` constructor (part_000 lines 71-75):
allocates a block for `length` elements and placement-new default-constructs
each slot; `d` is the value produced by `T()`. -/
def HeapArray.create (len : Nat) (d : α) : HeapArray α :=
  { begin := List.replicate len (some d), size := len }

/-- Model of `HeapArray::operator[]` (part_000 lines 96-101):
`if (index >= size) abort(); return begin[index];`. -/
def HeapArray.read (a : HeapArray α) (index : Nat) : Option α :=
  if a.size ≤ index then none else cellAt a.begin index

/-- Model of `HeapArray(HeapArray&& temp)` (part_000 lines 77-80): the new instance
takes `temp`'s pointer and size; `temp.begin` is set to `nullptr` and
`temp.size` to 0.  Returns (new instance, state of `temp` afterwards). -/
def HeapArray.moveCtor (temp : HeapArray α) : HeapArray α × HeapArray α :=
  ({ begin := temp.begin, size := temp.size }, { begin := [], size := 0 })

/-- Model of `HeapArray::copy` (part_000 lines 84-92): a fresh block is allocated and
each live element copy-constructed into it; the result has the same size. -/
def HeapArray.copy (a : HeapArray α) : HeapArray α :=
  { begin := copyLoop a.begin (List.replicate a.size none) a.size, size := a.size }

/-- Model of `GrowingArray<T>` (part_000 lines 118-202): a heap block, the count of
live elements and the allocated capacity. -/
structure GrowingArray (α : Type) where
  begin : List (Option α)
  size : Nat
  capacity : Nat
deriving DecidableEq

/-- The default constructor `GrowingArray()` (part_000 line 131):
`begin{nullptr}, size{0}, capacity{0}`. -/
def GrowingArray.empty : GrowingArray α := { begin := [], size := 0, capacity := 0 }

/-- The capacity update of `GrowingArray::push` (part_000 lines 165-169):
`if (capacity == 0) { capacity = 1; } capacity = (capacity * 3 + 1) / 2;`.
Both statements run: a zero capacity is first bumped to 1 and the division
formula is then applied to the bumped value. -/
def growCapacity (capacity : Nat) : Nat :=
  let capacity := if capacity = 0 then 1 else capacity
  (capacity * 3 + 1) / 2

/-- Model of `GrowingArray::operator[]` (part_000 lines 153-158):
`if (index >= size) abort(); return begin[index];`. -/
def GrowingArray.read (a : GrowingArray α) (index : Nat) : Option α :=
  if a.size ≤ index then none else cellAt a.begin index

/-- Model of the conditional growth step of `GrowingArray::push` (part_000
lines 164-175).  When `size == capacity` the capacity is updated, a new
block of `capacity` slots is allocated (line 170), the `size` live elements
are move-constructed into it (lines 171-173) and `begin` is repointed
(line 174) — the old block is not freed by any line of `push`. -/
def GrowingArray.growIfFull (a : GrowingArray α) : GrowingArray α :=
  if a.size = a.capacity then
    { begin := copyLoop a.begin (List.replicate (growCapacity a.capacity) none) a.size,
      size := a.size, capacity := growCapacity a.capacity }
  else a

/-- Model of `GrowingArray::push` (part_000 lines 163-178): the conditional
growth step above followed by the common tail `begin[size] = item; ++size;`
(lines 176-177) — a copy assignment into the slot at `size`. -/
def GrowingArray.push (a : GrowingArray α) (item : α) : GrowingArray α :=
  let a := a.growIfFull
  { a with begin := a.begin.set a.size (some item), size := a.size + 1 }

/-- Memory-management events performed by one `GrowingArray::push` call
(part_000 lines 163-178): on the growth path one `malloc` (line 170) and
`size` move-constructions (line 172); no `free` appears anywhere in `push`,
and the copy assignment of line 176 constructs and destructs nothing. -/
def GrowingArray.pushEffects (a : GrowingArray α) : Effects :=
  if a.size = a.capacity then ⟨1, 0, a.size, 0⟩ else ⟨0, 0, 0, 0⟩

/-- Memory-management events of `~GrowingArray()` (part_000 lines 185-190):
`size` destructor calls, then `free(begin)` — which releases a block only
when `begin` is not null. -/
def GrowingArray.destroyEffects (a : GrowingArray α) : Effects :=
  ⟨0, if a.begin.length = 0 then 0 else 1, 0, a.size⟩

/-- Model of `GrowingArray(GrowingArray&& temp)` (part_000 lines 133-136): the new
instance takes `temp`'s pointer, size and capacity; afterwards `temp.begin`
is null and `temp.size` is 0, but `temp.capacity` is left unchanged (no line
resets it).  Returns (new instance, state of `temp` afterwards). -/
def GrowingArray.moveCtor (temp : GrowingArray α) : GrowingArray α × GrowingArray α :=
  ({ begin := temp.begin, size := temp.size, capacity := temp.capacity },
   { begin := [], size := 0, capacity := temp.capacity })

/-- Model of `GrowingArray::copy` (part_000 lines 140-149): a fresh instance whose
block holds copies of the `size` live elements, with `size` and `capacity`
both set to the source's `size`. -/
def GrowingArray.copy (a : GrowingArray α) : GrowingArray α :=
  { begin := copyLoop a.begin (List.replicate a.size none) a.size,
    size := a.size, capacity := a.size }

/-- Byte count requested by the `malloc` call of `GrowingArray::copy`
(part_000 line 142): literally `malloc(size)` — `size` bytes, with no
`sizeof(T)` factor. -/
def GrowingArray.copyAllocBytes (a : GrowingArray α) : Nat := a.size

/-- Byte count written by the copy-construction loop of `GrowingArray::copy`
(part_000 lines 145-147): `size` objects of `sizeof(T)` bytes each are
placement-new constructed at consecutive slots of the new block. -/
def GrowingArray.copyLoopBytes (a : GrowingArray α) (sizeofT : Nat) : Nat :=
  a.size * sizeofT

/-- Byte count requested by the `malloc` call of `GrowingArray::push`
(part_000 line 170): `malloc(capacity * sizeof(T))`, for the updated
capacity. -/
def GrowingArray.pushAllocBytes (a : GrowingArray α) (sizeofT : Nat) : Nat :=
  growCapacity a.capacity * sizeofT

/-- Pushing a list of items in order, front first. -/
def GrowingArray.pushAll (a : GrowingArray α) (l : List α) : GrowingArray α :=
  l.foldl GrowingArray.push a

/-- Accumulated memory-management events of pushing a list of items in
order onto `a`. -/
def GrowingArray.runEffects (a : GrowingArray α) : List α → Effects
  | [] => Effects.zero
  | x :: xs => Effects.add a.pushEffects ((a.push x).runEffects xs)

/-- Memory-management events of the whole lifetime of a `GrowingArray` that
is default-constructed, receives the pushes of `l`, and is destroyed. -/
def GrowingArray.lifetimeEffects (l : List α) : Effects :=
  Effects.add (GrowingArray.runEffects GrowingArray.empty l)
    (GrowingArray.destroyEffects (GrowingArray.pushAll GrowingArray.empty l))

/-- Follows the words of claim C1, not the source: the claimed new capacity
`(old_capacity == 0) ? 1 : floor((old_capacity * 3 + 1) / 2)`, for comparison
with `growCapacity`. -/
def claimNewCapacity (old : Nat) : Nat :=
  if old = 0 then 1 else (old * 3 + 1) / 2

/-- Representation invariant of a `GrowingArray` state, relative to the
sequence `m` of values pushed so far: the live count equals the length of
`m`, it never exceeds the capacity, the block has exactly `capacity` slots,
and slot `i` of the block holds the constructed element `m[i]` for
`i < size` and raw memory for `size ≤ i < capacity` — exactly the elements
at positions `[0, size)` are the constructed, valid ones. -/
def GrowingArray.Stores (a : GrowingArray α) (m : List α) : Prop :=
  a.size = m.length ∧ a.size ≤ a.capacity ∧ a.begin.length = a.capacity ∧
  ∀ i, i < a.begin.length → cellAt a.begin i = m[i]?

instance (a : GrowingArray α) (m : List α) [DecidableEq α] :
    Decidable (a.Stores m) := by
  unfold GrowingArray.Stores
  infer_instance

/-- The observable allocation state of a `GrowingArray`: its live count and
its capacity, the two fields `GrowingArray::push` consults to decide whether
to reallocate. -/
def GrowingArray.shape (a : GrowingArray α) : Nat × Nat := (a.size, a.capacity)

/-- One `push` transforms the `(size, capacity)` pair in a way that depends
on nothing else; this function is that transformation (justified against
`GrowingArray.push` by `shape_push` below). -/
def shapeStep (s : Nat × Nat) : Nat × Nat :=
  (s.1 + 1, if s.1 = s.2 then growCapacity s.2 else s.2)

/-! Helper lemmas about slots, the copy loop and the growth arithmetic. -/

lemma cellAt_ge_length {b : List (Option α)} {i : Nat} (h : b.length ≤ i) :
    cellAt b i = none := by
  simp [cellAt, List.getElem?_eq_none h]

lemma cellAt_set_self {b : List (Option α)} {i : Nat} {v : Option α}
    (h : i < b.length) : cellAt (b.set i v) i = v := by
  simp [cellAt, List.getElem?_set_self h]

lemma cellAt_set_ne {b : List (Option α)} {i j : Nat} (v : Option α)
    (h : i ≠ j) : cellAt (b.set i v) j = cellAt b j := by
  simp [cellAt, List.getElem?_set_ne h]

lemma cellAt_replicate_none {n i : Nat} :
    cellAt (List.replicate n (none : Option α)) i = none := by
  unfold cellAt
  rw [List.getElem?_replicate]
  split <;> rfl

lemma length_copyLoop (src dst : List (Option α)) (n : Nat) :
    (copyLoop src dst n).length = dst.length := by
  induction n with
  | zero => rfl
  | succ k ih => simp [copyLoop, List.length_set, ih]

lemma cellAt_copyLoop_lt (src dst : List (Option α)) {n i : Nat} (hi : i < n)
    (hn : n ≤ dst.length) : cellAt (copyLoop src dst n) i = cellAt src i := by
  induction n with
  | zero => omega
  | succ k ih =>
    show cellAt ((copyLoop src dst k).set k (cellAt src k)) i = _
    by_cases hik : i = k
    · subst hik
      rw [cellAt_set_self (by rw [length_copyLoop]; omega)]
    · rw [cellAt_set_ne _ (fun hh => hik hh.symm)]
      exact ih (by omega) (by omega)

lemma cellAt_copyLoop_ge (src dst : List (Option α)) {n i : Nat} (hi : n ≤ i) :
    cellAt (copyLoop src dst n) i = cellAt dst i := by
  induction n with
  | zero => rfl
  | succ k ih =>
    show cellAt ((copyLoop src dst k).set k (cellAt src k)) i = _
    rw [cellAt_set_ne _ (by omega)]
    exact ih (by omega)

lemma lt_growCapacity (c : Nat) : c < growCapacity c := by
  show c < ((if c = 0 then 1 else c) * 3 + 1) / 2
  by_cases h : c = 0
  · subst h
    decide
  · rw [if_neg h]
    omega

lemma growIfFull_of_eq {a : GrowingArray α} (h : a.size = a.capacity) :
    a.growIfFull =
      { begin := copyLoop a.begin (List.replicate (growCapacity a.capacity) none) a.size,
        size := a.size, capacity := growCapacity a.capacity } := by
  unfold GrowingArray.growIfFull
  exact if_pos h

lemma growIfFull_of_ne {a : GrowingArray α} (h : ¬a.size = a.capacity) :
    a.growIfFull = a := by
  unfold GrowingArray.growIfFull
  exact if_neg h

lemma push_def (a : GrowingArray α) (x : α) :
    a.push x =
      { begin := a.growIfFull.begin.set a.growIfFull.size (some x),
        size := a.growIfFull.size + 1, capacity := a.growIfFull.capacity } := rfl

/-! Preservation of the representation invariant by the operations. -/

lemma growIfFull_spec {a : GrowingArray α} {m : List α} (hs : a.Stores m) :
    a.growIfFull.Stores m ∧ a.growIfFull.size = a.size ∧
    a.growIfFull.size < a.growIfFull.capacity := by
  obtain ⟨h1, h2, h3, h4⟩ := hs
  by_cases h : a.size = a.capacity
  · rw [growIfFull_of_eq h]
    have hgrow := lt_growCapacity a.capacity
    refine ⟨⟨h1, ?_, ?_, ?_⟩, rfl, ?_⟩
    · show a.size ≤ growCapacity a.capacity
      omega
    · show (copyLoop a.begin (List.replicate (growCapacity a.capacity) none) a.size).length
        = growCapacity a.capacity
      rw [length_copyLoop, List.length_replicate]
    · intro i hi
      replace hi : i < growCapacity a.capacity := by
        simpa [length_copyLoop] using hi
      show cellAt (copyLoop a.begin (List.replicate (growCapacity a.capacity) none) a.size) i
        = m[i]?
      by_cases hil : i < a.size
      · rw [cellAt_copyLoop_lt _ _ hil (by rw [List.length_replicate]; omega)]
        exact h4 i (by omega)
      · rw [cellAt_copyLoop_ge _ _ (by omega), cellAt_replicate_none]
        exact (List.getElem?_eq_none (by omega)).symm
    · show a.size < growCapacity a.capacity
      omega
  · rw [growIfFull_of_ne h]
    exact ⟨⟨h1, h2, h3, h4⟩, rfl, by omega⟩

lemma stores_push {a : GrowingArray α} {m : List α} (hs : a.Stores m) (x : α) :
    (a.push x).Stores (m ++ [x]) := by
  obtain ⟨⟨h1, h2, h3, h4⟩, hgsize, hlt⟩ := growIfFull_spec hs
  rw [push_def]
  refine ⟨?_, ?_, ?_, ?_⟩
  · show a.growIfFull.size + 1 = (m ++ [x]).length
    simp [h1]
  · show a.growIfFull.size + 1 ≤ a.growIfFull.capacity
    omega
  · show (a.growIfFull.begin.set a.growIfFull.size (some x)).length = a.growIfFull.capacity
    rw [List.length_set]
    exact h3
  · intro i hi
    replace hi : i < a.growIfFull.begin.length := by
      simpa [List.length_set] using hi
    show cellAt (a.growIfFull.begin.set a.growIfFull.size (some x)) i = (m ++ [x])[i]?
    by_cases hik : i = a.growIfFull.size
    · subst hik
      rw [cellAt_set_self (by omega), h1, List.getElem?_concat_length]
    · rw [cellAt_set_ne _ (fun hh => hik hh.symm), h4 i hi]
      by_cases hil : i < m.length
      · exact (List.getElem?_append_left hil).symm
      · rw [List.getElem?_eq_none (by omega),
          List.getElem?_eq_none (by simp [List.length_append]; omega)]

lemma empty_stores : (GrowingArray.empty : GrowingArray α).Stores [] := by
  refine ⟨rfl, Nat.le_refl 0, rfl, ?_⟩
  intro i hi
  exact absurd hi (by simp [GrowingArray.empty])

lemma stores_pushAll (l : List α) :
    ∀ (a : GrowingArray α) (m : List α), a.Stores m → (a.pushAll l).Stores (m ++ l) := by
  induction l with
  | nil => intro a m hs; simpa [GrowingArray.pushAll] using hs
  | cons x xs ih =>
    intro a m hs
    have h2 := ih (a.push x) (m ++ [x]) (stores_push hs x)
    simpa [GrowingArray.pushAll] using h2

lemma stores_copy {a : GrowingArray α} {m : List α} (hs : a.Stores m) :
    a.copy.Stores m := by
  obtain ⟨h1, h2, h3, h4⟩ := hs
  refine ⟨h1, Nat.le_refl _, ?_, ?_⟩
  · unfold GrowingArray.copy
    rw [length_copyLoop, List.length_replicate]
  · intro i hi
    unfold GrowingArray.copy at hi ⊢
    rw [length_copyLoop, List.length_replicate] at hi
    rw [cellAt_copyLoop_lt _ _ hi (by rw [List.length_replicate])]
    exact h4 i (by omega)

lemma shape_push (a : GrowingArray α) (x : α) :
    (a.push x).shape = shapeStep a.shape := by
  rw [push_def]
  unfold shapeStep GrowingArray.shape
  by_cases h : a.size = a.capacity
  · rw [growIfFull_of_eq h]
    simp [h]
  · rw [growIfFull_of_ne h]
    simp [h]

lemma shape_pushAll (l : List α) : ∀ a : GrowingArray α,
    (a.pushAll l).shape = Nat.iterate shapeStep l.length a.shape := by
  induction l with
  | nil => intro a; rfl
  | cons x xs ih =>
    intro a
    show ((a.push x).pushAll xs).shape = Nat.iterate shapeStep (xs.length + 1) a.shape
    rw [ih (a.push x), shape_push, Function.iterate_succ_apply]

/-! Theorems settling the claims. -/

/-- C1, counterexample.  The claim computes the new capacity as
`(old_capacity == 0) ? 1 : floor((old_capacity * 3 + 1) / 2)`, which yields
1 for the first growth event; the code first bumps a zero capacity to 1 and
then applies the division formula to the bumped value, so the very first
push on an empty `GrowingArray` already sets the capacity to 2, not 1. -/
theorem c1_first_growth_counterexample :
    claimNewCapacity 0 = 1 ∧
    (GrowingArray.push (GrowingArray.empty : GrowingArray Nat) 0).capacity = 2 ∧
    (GrowingArray.push (GrowingArray.empty : GrowingArray Nat) 0).capacity ≠
      claimNewCapacity 0 := by
  decide

/-- C1, amended.  A growth event occurs on a push exactly when
`size == capacity` (only then does the capacity change and a `malloc`
happen), and it sets the new capacity to
`((old_capacity == 0 ? 1 : old_capacity) * 3 + 1) / 2`; consequently,
starting from capacity 0, the successive capacities after each growth event
follow exactly the sequence `0 → 2 → 3 → 5 → 8 → 12 → …`. -/
theorem c1_growth_rule_amended :
    (∀ (α : Type) (a : GrowingArray α) (x : α),
        (a.push x).capacity =
          if a.size = a.capacity then growCapacity a.capacity else a.capacity) ∧
    (∀ (α : Type) (a : GrowingArray α),
        a.pushEffects.mallocs = if a.size = a.capacity then 1 else 0) ∧
    (List.range 6).map (fun n => Nat.iterate growCapacity n 0) = [0, 2, 3, 5, 8, 12] := by
  refine ⟨?_, ?_, by decide⟩
  · intro α a x
    rw [push_def]
    by_cases h : a.size = a.capacity
    · rw [growIfFull_of_eq h, if_pos h]
    · rw [growIfFull_of_ne h, if_neg h]
  · intro α a
    unfold GrowingArray.pushEffects
    by_cases h : a.size = a.capacity
    · rw [if_pos h, if_pos h]
    · rw [if_neg h, if_neg h]

/-- C2, counterexample.  After moving from a `GrowingArray` that has
capacity 2 (one element pushed), the source keeps capacity 2 — the move
constructor (part_000 lines 133-136) nulls `begin` and zeroes `size` but
never resets `capacity` — so the source is not in the same state as a
default-constructed instance, whose capacity is 0. -/
theorem c2_moved_from_state_counterexample :
    (GrowingArray.moveCtor (GrowingArray.pushAll (GrowingArray.empty : GrowingArray Nat) [2])).2.capacity = 2 ∧
    (GrowingArray.empty : GrowingArray Nat).capacity = 0 ∧
    (GrowingArray.moveCtor (GrowingArray.pushAll (GrowingArray.empty : GrowingArray Nat) [2])).2 ≠
      (GrowingArray.empty : GrowingArray Nat) := by
  decide

/-- C2, amended.  Move construction of a `GrowingArray` transfers the block
pointer, size and capacity to the destination, which holds exactly the
source's pre-move state; afterwards the source has a null block pointer and
size 0 (so `length() == 0`) and is safe to destroy without affecting the
destination (its destructor destructs no element and frees no block) — but
the source's `capacity` field keeps its pre-move value instead of being
reset to 0, so the source is not in the state of a default-constructed
instance.  For `HeapArray` the pointer and size are transferred and the
source is fully zeroed. -/
theorem c2_move_semantics_amended :
    (∀ (α : Type) (a : GrowingArray α),
        a.moveCtor.1 = a ∧
        a.moveCtor.2.begin = [] ∧
        a.moveCtor.2.size = 0 ∧
        a.moveCtor.2.capacity = a.capacity ∧
        a.moveCtor.2.destroyEffects = Effects.zero) ∧
    (∀ (α : Type) (b : HeapArray α),
        b.moveCtor.1 = b ∧ b.moveCtor.2.begin = [] ∧ b.moveCtor.2.size = 0) :=
  ⟨fun _ _ => ⟨rfl, rfl, rfl, rfl, rfl⟩, fun _ _ => ⟨rfl, rfl, rfl⟩⟩

/-- C5, evaluation at the failing input.  Pushing three items onto an empty
`GrowingArray` triggers two growth reallocations (`malloc` twice), yet the
pushes perform no `free` at all — `GrowingArray::push` (part_000 lines
163-178) never frees the old block after moving the elements out — and the
destructor frees only the final block, so one of the two allocated blocks
is leaked over the container's lifetime. -/
theorem c5_old_block_never_freed :
    (GrowingArray.runEffects (GrowingArray.empty : GrowingArray Nat) [1, 2, 3]).mallocs = 2 ∧
    (GrowingArray.runEffects (GrowingArray.empty : GrowingArray Nat) [1, 2, 3]).frees = 0 ∧
    (GrowingArray.lifetimeEffects ([1, 2, 3] : List Nat)).mallocs = 2 ∧
    (GrowingArray.lifetimeEffects ([1, 2, 3] : List Nat)).frees = 1 := by
  decide

/-- C6, evaluation at the failing input.  Over the lifetime of a
`GrowingArray` holding one instrumented element, the container performs 0
element constructions (the push writes the element by copy assignment into
raw memory, part_000 line 176) but 1 destruction (the destructor, lines
185-190) — the counts do not balance.  With three elements the mismatch is
2 constructions (the move-constructions of the reallocation loops) against
3 destructions, and the two elements moved from during the second
reallocation are never destructed. -/
theorem c6_ctor_dtor_mismatch :
    (GrowingArray.lifetimeEffects ([5] : List Nat)).ctors = 0 ∧
    (GrowingArray.lifetimeEffects ([5] : List Nat)).dtors = 1 ∧
    (GrowingArray.lifetimeEffects ([1, 2, 3] : List Nat)).ctors = 2 ∧
    (GrowingArray.lifetimeEffects ([1, 2, 3] : List Nat)).dtors = 3 := by
  decide

/-- C7, evaluation at the failing input.  `GrowingArray::copy` (part_000
line 142) allocates `malloc(size)` — `size` bytes, the `sizeof(T)` factor
present in `push`'s `malloc(capacity * sizeof(T))` (line 170) is missing —
while its loop copy-constructs `size` elements of `sizeof(T)` bytes each.
For a two-element `GrowingArray<int>` (`sizeof(int) == 4`) the copy writes
8 bytes into a 2-byte block, past the end of the allocation. -/
theorem c7_copy_underallocates :
    GrowingArray.copyAllocBytes (GrowingArray.pushAll (GrowingArray.empty : GrowingArray Nat) [2, 4]) = 2 ∧
    GrowingArray.copyLoopBytes (GrowingArray.pushAll (GrowingArray.empty : GrowingArray Nat) [2, 4]) 4 = 8 ∧
    GrowingArray.copyAllocBytes (GrowingArray.pushAll (GrowingArray.empty : GrowingArray Nat) [2, 4]) <
      GrowingArray.copyLoopBytes (GrowingArray.pushAll (GrowingArray.empty : GrowingArray Nat) [2, 4]) 4 ∧
    GrowingArray.pushAllocBytes (GrowingArray.empty : GrowingArray Nat) 4 = 8 := by
  decide

/-- C3.  Pushing any sequence of items in order onto a default-constructed
`GrowingArray` yields `length() == k` and indexed access at every `i < k`
returns the `i`-th pushed item. -/
theorem c3_growth_correctness (l : List α) :
    (GrowingArray.pushAll GrowingArray.empty l).size = l.length ∧
    ∀ i, (h : i < l.length) →
      (GrowingArray.pushAll GrowingArray.empty l).read i = some l[i] := by
  obtain ⟨h1, h2, h3, h4⟩ := stores_pushAll l GrowingArray.empty [] empty_stores
  rw [List.nil_append] at h1 h4
  refine ⟨h1, ?_⟩
  intro i hil
  unfold GrowingArray.read
  rw [if_neg (by omega), h4 i (by omega)]
  exact List.getElem?_eq_getElem hil

/-- Witness for C3 at a concrete input: ten pushes, crossing the
reallocation boundaries at capacities 2, 3, 5 and 8. -/
theorem c3_growth_correctness_witness :
    (GrowingArray.pushAll (GrowingArray.empty : GrowingArray Nat) [3, 1, 4, 1, 5, 9, 2, 6, 5, 3]).size = 10 ∧
    (GrowingArray.pushAll (GrowingArray.empty : GrowingArray Nat) [3, 1, 4, 1, 5, 9, 2, 6, 5, 3]).read 7 = some 6 :=
  ⟨(c3_growth_correctness [3, 1, 4, 1, 5, 9, 2, 6, 5, 3]).1,
   (c3_growth_correctness [3, 1, 4, 1, 5, 9, 2, 6, 5, 3]).2 7 (by decide)⟩

/-- C4.  For each container variant, runtime indexed access aborts (returns
`none` in the model) exactly when the index is at least the length, and for
an in-bounds index returns the element stored at that position. -/
theorem c4_bounds_enforcement (n : Nat) (sa : StackArray α n) (ha : HeapArray α)
    (ga : GrowingArray α) (m : List α)
    (hha : ∀ j, j < ha.size → (cellAt ha.begin j).isSome)
    (hga : ga.Stores m) (i j k : Nat) :
    (sa.read i = none ↔ n ≤ i) ∧
    (i < n → sa.read i = sa.c_array[i]?) ∧
    (ha.read j = none ↔ ha.size ≤ j) ∧
    (j < ha.size → ha.read j = cellAt ha.begin j) ∧
    (ga.read k = none ↔ ga.size ≤ k) ∧
    (k < ga.size → ga.read k = m[k]?) := by
  obtain ⟨h1, h2, h3, h4⟩ := hga
  refine ⟨⟨?_, ?_⟩, ?_, ⟨?_, ?_⟩, ?_, ⟨?_, ?_⟩, ?_⟩
  · intro hnone
    by_contra hlt
    rw [StackArray.read, if_neg hlt] at hnone
    rw [List.getElem?_eq_getElem (by rw [sa.size_eq]; omega)] at hnone
    exact Option.noConfusion hnone
  · intro hge
    rw [StackArray.read, if_pos hge]
  · intro hlt
    rw [StackArray.read, if_neg (by omega)]
  · intro hnone
    by_contra hlt
    rw [HeapArray.read, if_neg hlt] at hnone
    have hj := hha j (by omega)
    rw [hnone] at hj
    exact absurd hj (by simp)
  · intro hge
    rw [HeapArray.read, if_pos hge]
  · intro hlt
    rw [HeapArray.read, if_neg (by omega)]
  · intro hnone
    by_contra hlt
    rw [GrowingArray.read, if_neg hlt] at hnone
    rw [h4 k (by omega)] at hnone
    rw [List.getElem?_eq_getElem (by omega)] at hnone
    exact Option.noConfusion hnone
  · intro hge
    rw [GrowingArray.read, if_pos hge]
  · intro hlt
    rw [GrowingArray.read, if_neg (by omega)]
    exact h4 k (by omega)

/-- Witness for C4 at concrete inputs: a `StackArray<int, 3>` read at the
out-of-bounds index 5, a `HeapArray<int>` of length 3 read at 1, and a
three-element `GrowingArray<int>` read at 2. -/
theorem c4_bounds_enforcement_witness :
    ((StackArray.mk [2, 4, 6] rfl : StackArray Nat 3).read 5 = none ↔ 3 ≤ 5) ∧
    (5 < 3 → (StackArray.mk [2, 4, 6] rfl : StackArray Nat 3).read 5 = (StackArray.mk [2, 4, 6] rfl : StackArray Nat 3).c_array[5]?) ∧
    ((HeapArray.create 3 (0 : Nat)).read 1 = none ↔ (HeapArray.create 3 (0 : Nat)).size ≤ 1) ∧
    (1 < (HeapArray.create 3 (0 : Nat)).size → (HeapArray.create 3 (0 : Nat)).read 1 = cellAt (HeapArray.create 3 (0 : Nat)).begin 1) ∧
    ((GrowingArray.pushAll (GrowingArray.empty : GrowingArray Nat) [2, 4, 6]).read 2 = none ↔ (GrowingArray.pushAll (GrowingArray.empty : GrowingArray Nat) [2, 4, 6]).size ≤ 2) ∧
    (2 < (GrowingArray.pushAll (GrowingArray.empty : GrowingArray Nat) [2, 4, 6]).size → (GrowingArray.pushAll (GrowingArray.empty : GrowingArray Nat) [2, 4, 6]).read 2 = [2, 4, 6][2]?) :=
  c4_bounds_enforcement 3 (StackArray.mk [2, 4, 6] rfl) (HeapArray.create 3 0)
    (GrowingArray.pushAll GrowingArray.empty [2, 4, 6]) [2, 4, 6]
    (by decide) (by decide) 5 1 2

/-- C8.  A push onto a `GrowingArray` with `size < capacity` performs no
allocation (and no free, construction or destruction), leaves the capacity
unchanged, writes the item's value at position `size`, increments `size` by
exactly one, and leaves every existing element at positions `[0, size)`
unchanged. -/
theorem c8_push_without_growth (a : GrowingArray α) (x : α)
    (hlt : a.size < a.capacity) (hlen : a.begin.length = a.capacity) :
    a.pushEffects = Effects.zero ∧
    (a.push x).capacity = a.capacity ∧
    (a.push x).size = a.size + 1 ∧
    cellAt (a.push x).begin a.size = some x ∧
    ∀ i, i < a.size → cellAt (a.push x).begin i = cellAt a.begin i := by
  have hne : ¬a.size = a.capacity := by omega
  have hpush := push_def a x
  rw [growIfFull_of_ne hne] at hpush
  rw [hpush]
  refine ⟨?_, rfl, rfl, ?_, ?_⟩
  · unfold GrowingArray.pushEffects
    rw [if_neg hne]
    rfl
  · show cellAt (a.begin.set a.size (some x)) a.size = some x
    exact cellAt_set_self (by omega)
  · intro i hi
    show cellAt (a.begin.set a.size (some x)) i = cellAt a.begin i
    exact cellAt_set_ne _ (by omega)

/-- Witness for C8 at a concrete input: the one-element `GrowingArray<int>`
with capacity 2 (block `[some 2, raw]`), pushed with the value 7. -/
theorem c8_push_without_growth_witness :
    (GrowingArray.pushAll (GrowingArray.empty : GrowingArray Nat) [2]).pushEffects = Effects.zero ∧
    ((GrowingArray.pushAll (GrowingArray.empty : GrowingArray Nat) [2]).push 7).capacity = (GrowingArray.pushAll (GrowingArray.empty : GrowingArray Nat) [2]).capacity ∧
    ((GrowingArray.pushAll (GrowingArray.empty : GrowingArray Nat) [2]).push 7).size = (GrowingArray.pushAll (GrowingArray.empty : GrowingArray Nat) [2]).size + 1 ∧
    cellAt ((GrowingArray.pushAll (GrowingArray.empty : GrowingArray Nat) [2]).push 7).begin (GrowingArray.pushAll (GrowingArray.empty : GrowingArray Nat) [2]).size = some 7 ∧
    (∀ i, i < (GrowingArray.pushAll (GrowingArray.empty : GrowingArray Nat) [2]).size →
      cellAt ((GrowingArray.pushAll (GrowingArray.empty : GrowingArray Nat) [2]).push 7).begin i =
        cellAt (GrowingArray.pushAll (GrowingArray.empty : GrowingArray Nat) [2]).begin i) :=
  c8_push_without_growth (GrowingArray.pushAll GrowingArray.empty [2]) 7
    (by decide) (by decide)

/-- C9.  A default-constructed `GrowingArray` has `size = capacity = 0` and
no allocation (`begin` null), and satisfies the representation invariant
`size ≤ capacity` with exactly the elements at positions `[0, size)`
constructed (`Stores`); the invariant is preserved by push, by copy, and by
move construction — for the moved-from source, `size = 0 ≤ capacity` holds
and no position holds a constructed element, matching its zero size. -/
theorem c9_invariant_preserved :
    ((GrowingArray.empty : GrowingArray α).size = 0 ∧
     (GrowingArray.empty : GrowingArray α).capacity = 0 ∧
     (GrowingArray.empty : GrowingArray α).begin = [] ∧
     GrowingArray.Stores (GrowingArray.empty : GrowingArray α) []) ∧
    (∀ (a : GrowingArray α) (m : List α) (x : α),
        a.Stores m → (a.push x).Stores (m ++ [x])) ∧
    (∀ (a : GrowingArray α) (m : List α), a.Stores m → a.copy.Stores m) ∧
    (∀ (a : GrowingArray α) (m : List α), a.Stores m →
        a.moveCtor.1.Stores m ∧
        a.moveCtor.2.size = 0 ∧
        a.moveCtor.2.size ≤ a.moveCtor.2.capacity ∧
        ∀ i, cellAt a.moveCtor.2.begin i = none) :=
  ⟨⟨rfl, rfl, rfl, empty_stores⟩,
   fun _ _ x hs => stores_push hs x,
   fun _ _ hs => stores_copy hs,
   fun _ _ hs => ⟨hs, rfl, Nat.zero_le _, fun _ => rfl⟩⟩

/-- Witness for C9 at a concrete input: the invariant transported across a
push onto the one-element `GrowingArray<int>`. -/
theorem c9_invariant_preserved_witness :
    GrowingArray.Stores
      ((GrowingArray.pushAll (GrowingArray.empty : GrowingArray Nat) [2]).push 7)
      ([2] ++ [7]) :=
  c9_invariant_preserved.2.1 (GrowingArray.pushAll GrowingArray.empty [2]) [2] 7 (by decide)

/-- C10.  The size and capacity reached after any number of pushes from the
empty state depend only on the number of pushes: two runs of equally many
pushes, with element values of arbitrary (even different) types, have
identical `(size, capacity)` after every step. -/
theorem c10_shape_independent_of_values (l1 : List α) (l2 : List β)
    (h : l1.length = l2.length) (k : Nat) :
    (GrowingArray.pushAll GrowingArray.empty (l1.take k)).shape =
      (GrowingArray.pushAll GrowingArray.empty (l2.take k)).shape := by
  rw [shape_pushAll, shape_pushAll]
  have hlen : (l1.take k).length = (l2.take k).length := by
    simp [List.length_take, h]
  rw [hlen]
  rfl

/-- Witness for C10 at concrete inputs: two pushes out of a run of natural
numbers and a run of booleans produce the same `(size, capacity)`. -/
theorem c10_shape_independent_of_values_witness :
    (GrowingArray.pushAll (GrowingArray.empty : GrowingArray Nat) ([10, 20, 30].take 2)).shape =
      (GrowingArray.pushAll (GrowingArray.empty : GrowingArray Bool) ([true, false, true].take 2)).shape :=
  c10_shape_independent_of_values [10, 20, 30] [true, false, true] (by decide) 2

end ArrayLib
